import Mathlib

/-!
Verification of the hypervisor abstraction layer (`src/hypervisor/src/lib.rs`)
against its design specification.

The source file under verification contains the crate entry point `new` and the
variable-length record allocator (`vec_with_size_in_bytes`, `vec_with_array_field`).
Those are embedded directly from the Rust source.  The `Vm` / `Vcpu` capability
contracts (memory regions, IRQ routing, register access, save/restore, exit
normalization) live in modules of this repository that are not part of the
examined source; they are modelled from the spec, as marked on each definition.

Machine arithmetic: the crate targets x86_64 and arm64, both 64-bit, so `usize`
arithmetic is `Nat` arithmetic reduced modulo `2 ^ 64`.  We model release-build
semantics, where integer overflow wraps; a debug build would panic at exactly
the points where a wrapping reduction below is non-trivial.  Operations that
panic in every build (division by zero for a zero-sized header type) are
modelled by returning `none`.
-/

namespace CloudHv

/-! ## The variable-length record allocator (embedded from src/hypervisor/src/lib.rs) -/

/-- Embedding of `vec_with_size_in_bytes::<T>(size_in_bytes)` from
`src/hypervisor/src/lib.rs` lines 93-98:

```rust
fn vec_with_size_in_bytes<T: Default>(size_in_bytes: usize) -> Vec<T> {
    let rounded_size = (size_in_bytes + size_of::<T>() - 1) / size_of::<T>();
    let mut v = Vec::with_capacity(rounded_size);
    v.resize_with(rounded_size, T::default);
    v
}
```

`sizeT` stands for `size_of::<T>()` and `dflt` for the value produced by
`T::default`.  When `sizeT = 0` the division by zero panics in every build
(for `size_in_bytes = 0` the subtraction additionally underflows first), so the
result is `none`.  When `sizeT > 0` the addition `size_in_bytes + sizeT` and the
subtraction of 1 are wrapping `usize` operations in a release build; for
arguments below `2 ^ 64` their composition equals
`(size_in_bytes + sizeT - 1) % 2 ^ 64` over `Nat`. -/
def vec_with_size_in_bytes {α : Type} (dflt : α) (sizeT size_in_bytes : Nat) :
    Option (List α) :=
  if sizeT = 0 then none
  else
    let rounded_size := (size_in_bytes + sizeT - 1) % 2 ^ 64 / sizeT
    some (List.replicate rounded_size dflt)

/-- The byte size computed by the first two lines of `vec_with_array_field`
(`src/hypervisor/src/lib.rs` lines 117-118), in wrapping `usize` arithmetic:

```rust
    let element_space = count * size_of::<F>();
    let vec_size_bytes = size_of::<T>() + element_space;
``` -/
def array_field_size_bytes (sizeT sizeF count : Nat) : Nat :=
  let element_space := count * sizeF % 2 ^ 64
  (sizeT + element_space) % 2 ^ 64

/-- Embedding of `vec_with_array_field::<T, F>(count)` from
`src/hypervisor/src/lib.rs` lines 116-120:

```rust
pub fn vec_with_array_field<T: Default, F>(count: usize) -> Vec<T> {
    let element_space = count * size_of::<F>();
    let vec_size_bytes = size_of::<T>() + element_space;
    vec_with_size_in_bytes(vec_size_bytes)
}
``` -/
def vec_with_array_field {α : Type} (dflt : α) (sizeT sizeF count : Nat) :
    Option (List α) :=
  vec_with_size_in_bytes dflt sizeT (array_field_size_bytes sizeT sizeF count)

/-- Modelled from the spec: the header types `T` passed to the allocator are
`repr(C)` kernel records whose `Default` implementation is the all-zero value
(the spec requires the allocator to hand out zero-initialized storage).  A
header value is modelled as its byte image, so the all-zero value of a header
of `sizeT` bytes is `sizeT` zero bytes. -/
def zeroRecord (sizeT : Nat) : List Nat :=
  List.replicate sizeT 0

example : vec_with_size_in_bytes () 4 10 = some (List.replicate 3 ()) := by decide
example : vec_with_array_field () 4 4 2 = some (List.replicate 3 ()) := by decide
example : vec_with_size_in_bytes () 0 5 = none := by decide

/-! ## Helper lemmas on ceiling division -/

theorem le_ceil_mul (H X : Nat) (hH : 0 < H) : X ≤ (X + H - 1) / H * H := by
  have h1 := Nat.div_add_mod (X + H - 1) H
  have h2 : (X + H - 1) % H < H := Nat.mod_lt _ hH
  have h3 : (X + H - 1) / H * H = H * ((X + H - 1) / H) := Nat.mul_comm _ _
  omega

theorem flatten_replicate_zero (k H : Nat) :
    (List.replicate k (List.replicate H (0 : Nat))).flatten = List.replicate (k * H) 0 := by
  induction k with
  | zero => simp
  | succ n ih =>
    rw [List.replicate_succ, List.flatten_cons, ih, Nat.succ_mul, Nat.add_comm,
      List.replicate_add]

/-! ## Claims about the allocator -/

/-- Claim C1, as frozen, is refuted by the code: with header size `H = 2`,
element size `E = 1` and count `N = 2 ^ 64 - 3`, the sum `H + N * E` equals
`usize::MAX` and does not overflow, yet the internal rounding addition
`vec_size_bytes + sizeT - 1` wraps to zero (release build; a debug build
panics here), so the returned buffer has byte length `0`, which is not
greater than or equal to `H + N * E`. -/
theorem c1_counterexample :
    0 < 2 ∧ 2 + (2 ^ 64 - 3) * 1 ≤ 2 ^ 64 - 1 ∧
    vec_with_array_field () 2 1 (2 ^ 64 - 3) = some ([] : List Unit) ∧
    ¬ 2 + (2 ^ 64 - 3) * 1 ≤ ([] : List Unit).length * 2 := by decide

/-- Claim C1 (amended): for header size `H > 0`, element size `E`, and count
`N` such that `(H + N * E) + (H - 1)` does not overflow `usize`,
`vec_with_array_field` returns a buffer whose total byte length (number of
elements times `H`) is the smallest multiple of the header size `H` that is
greater than or equal to `H + N * E`, so the buffer covers the fixed header
plus `N` contiguous trailing elements with no gap. -/
theorem c1_buffer_is_min_multiple_of_header (α : Type) (dflt : α) (H E N : Nat)
    (hH : 0 < H) (hfit : H + N * E + (H - 1) < 2 ^ 64) :
    vec_with_array_field dflt H E N =
      some (List.replicate ((H + N * E + H - 1) / H) dflt) ∧
    H + N * E ≤ (H + N * E + H - 1) / H * H ∧
    (H + N * E + H - 1) / H * H < H + N * E + H := by
  have hNE : N * E < 2 ^ 64 := by omega
  have hX : H + N * E < 2 ^ 64 := by omega
  have hsz : array_field_size_bytes H E N = H + N * E := by
    unfold array_field_size_bytes
    rw [Nat.mod_eq_of_lt hNE, Nat.mod_eq_of_lt hX]
  refine ⟨?_, le_ceil_mul H (H + N * E) hH, ?_⟩
  · unfold vec_with_array_field vec_with_size_in_bytes
    rw [hsz, if_neg (by omega)]
    rw [Nat.mod_eq_of_lt (show H + N * E + H - 1 < 2 ^ 64 by omega)]
  · have := Nat.div_mul_le_self (H + N * E + H - 1) H
    omega

theorem c1_buffer_is_min_multiple_of_header_witness :
    vec_with_array_field (0 : Nat) 4 4 2 =
      some (List.replicate ((4 + 2 * 4 + 4 - 1) / 4) 0) ∧
    4 + 2 * 4 ≤ (4 + 2 * 4 + 4 - 1) / 4 * 4 ∧
    (4 + 2 * 4 + 4 - 1) / 4 * 4 < 4 + 2 * 4 + 4 :=
  c1_buffer_is_min_multiple_of_header Nat 0 4 4 2 (by decide) (by decide)

/-- Claim C8: whenever `vec_with_array_field` returns a buffer for a header
type whose default value is the all-zero record, every element of the buffer
equals that all-zero value, so every byte of the buffer is zero
(zero-initialized storage). -/
theorem c8_buffer_zero_initialized (H E N : Nat) (l : List (List Nat))
    (h : vec_with_array_field (zeroRecord H) H E N = some l) :
    l = List.replicate l.length (zeroRecord H) ∧
    l.flatten = List.replicate (l.length * H) 0 := by
  unfold vec_with_array_field vec_with_size_in_bytes at h
  by_cases hH : H = 0
  · rw [if_pos hH] at h
    exact absurd h (by simp)
  · rw [if_neg hH] at h
    simp only [Option.some.injEq] at h
    subst h
    rw [List.length_replicate]
    exact ⟨rfl, flatten_replicate_zero _ H⟩

theorem c8_buffer_zero_initialized_witness :
    List.replicate 3 (zeroRecord 4) =
      List.replicate (List.replicate 3 (zeroRecord 4)).length (zeroRecord 4) ∧
    (List.replicate 3 (zeroRecord 4)).flatten =
      List.replicate ((List.replicate 3 (zeroRecord 4)).length * 4) 0 :=
  c8_buffer_zero_initialized 4 4 2 (List.replicate 3 (zeroRecord 4)) (by decide)

/-- Claim C9, as frozen, is refuted by the code: for `sizeT = 2 > 0` and
`size_in_bytes = 2 ^ 64 - 1`, the rounding addition wraps (release build; a
debug build panics), and the function returns a vector of `0` elements
instead of `ceil(size_in_bytes / sizeT) = 2 ^ 63` elements, so totality with
the exact ceiling count does not hold for every `size_in_bytes`. -/
theorem c9_counterexample :
    0 < 2 ∧
    Option.map List.length (vec_with_size_in_bytes () 2 (2 ^ 64 - 1)) = some 0 ∧
    (2 ^ 64 - 1 + 2 - 1) / 2 ≠ 0 := by decide

/-- Claim C9 (amended): under the preconditions `size_of T > 0` and
`size_in_bytes + size_of T - 1 ≤ usize::MAX`, `vec_with_size_in_bytes`
returns a vector of exactly `ceil(size_in_bytes / size_of T)` elements; and
for a zero-sized `T` it panics (the subtraction underflows when
`size_in_bytes = 0` and the division by `size_of T = 0` panics in every
build). -/
theorem c9_rounded_size (α : Type) (dflt : α) (H n : Nat) :
    (0 < H → n + H - 1 < 2 ^ 64 →
      vec_with_size_in_bytes dflt H n = some (List.replicate ((n + H - 1) / H) dflt)) ∧
    (H = 0 → vec_with_size_in_bytes dflt H n = none) := by
  constructor
  · intro hH hlt
    unfold vec_with_size_in_bytes
    rw [if_neg (by omega), Nat.mod_eq_of_lt hlt]
  · intro hH
    unfold vec_with_size_in_bytes
    rw [if_pos hH]

theorem c9_rounded_size_witness :
    vec_with_size_in_bytes () 4 10 = some (List.replicate ((10 + 4 - 1) / 4) ()) ∧
    vec_with_size_in_bytes () 0 10 = none :=
  ⟨(c9_rounded_size Unit () 4 10).1 (by decide) (by decide),
   (c9_rounded_size Unit () 0 10).2 rfl⟩

/-- Claim C10: the byte-size computation of `vec_with_array_field` is`usize`
arithmetic: when `size_of T + count * size_of F` fits in `usize`, the
computed byte size is exact; when it does not fit, the computation wraps
modulo `2 ^ 64` (a debug build panics), and any buffer the function then
returns is strictly smaller than the exact requirement. -/
theorem c10_byte_size_wrapping (α : Type) (dflt : α) (H E N : Nat) :
    (H + N * E < 2 ^ 64 → array_field_size_bytes H E N = H + N * E) ∧
    (2 ^ 64 ≤ H + N * E →
      array_field_size_bytes H E N = (H + N * E) % 2 ^ 64 ∧
      ∀ l : List α, vec_with_array_field dflt H E N = some l →
        l.length * H < H + N * E) := by
  have hmod : array_field_size_bytes H E N = (H + N * E) % 2 ^ 64 := by
    unfold array_field_size_bytes
    conv_rhs => rw [Nat.add_mod]
    rw [Nat.add_mod H (N * E % 2 ^ 64), Nat.mod_mod_of_dvd _ dvd_rfl]
  constructor
  · intro hlt
    rw [hmod, Nat.mod_eq_of_lt hlt]
  · intro hge
    refine ⟨hmod, ?_⟩
    intro l hl
    unfold vec_with_array_field vec_with_size_in_bytes at hl
    by_cases hH : H = 0
    · rw [if_pos hH] at hl
      exact absurd hl (by simp)
    · rw [if_neg hH] at hl
      simp only [Option.some.injEq] at hl
      subst hl
      rw [List.length_replicate]
      have h1 := Nat.div_mul_le_self
        ((array_field_size_bytes H E N + H - 1) % 2 ^ 64) H
      have h2 : (array_field_size_bytes H E N + H - 1) % 2 ^ 64 < 2 ^ 64 :=
        Nat.mod_lt _ (by positivity)
      omega

theorem c10_byte_size_wrapping_witness :
    array_field_size_bytes 4 4 2 = 4 + 2 * 4 ∧
    array_field_size_bytes 4 1 (2 ^ 64 - 2) = (4 + (2 ^ 64 - 2) * 1) % 2 ^ 64 ∧
    ([()] : List Unit).length * 4 < 4 + (2 ^ 64 - 2) * 1 := by
  refine ⟨(c10_byte_size_wrapping Unit () 4 4 2).1 (by decide), ?_, ?_⟩
  · exact ((c10_byte_size_wrapping Unit () 4 1 (2 ^ 64 - 2)).2 (by decide)).1
  · exact ((c10_byte_size_wrapping Unit () 4 1 (2 ^ 64 - 2)).2 (by decide)).2
      [()] (by decide)

/-! ## Construction entry point (embedded from src/hypervisor/src/lib.rs) -/

/-- Shared-ownership, reference-counted handle (`std::sync::Arc`). -/
structure Arc (α : Type) where
  val : α
  deriving DecidableEq

/-- Embedding of `new` from `src/hypervisor/src/lib.rs` lines 82-90:

```rust
pub fn new() -> std::result::Result<Arc<dyn Hypervisor>, HypervisorError> {
    #[cfg(feature = "kvm")]
    let hv = kvm::KvmHypervisor::new()?;

    #[cfg(feature = "mshv")]
    let hv = mshv::MshvHypervisor::new()?;

    Ok(Arc::new(hv))
}
```

Exactly one backend feature is compiled in, so one constructor runs.  The
backend constructors (`KvmHypervisor::new`, `MshvHypervisor::new`) live in
modules outside the examined source; `backendNew` stands for the result of
the single compiled-in constructor. -/
def new (B E : Type) (backendNew : Except E B) : Except E (Arc B) := do
  let hv ← backendNew
  pure (Arc.mk hv)

/-- Claim C6: `new` either returns Ok with a shared handle wrapping the fully
constructed compiled-in backend, or returns exactly the backend-initialization
error produced by that backend constructor; there is no runtime fallback and
no partially constructed handle. -/
theorem c6_new_propagates_backend (B E : Type) (backendNew : Except E B) :
    (∀ hv : B, backendNew = Except.ok hv →
      new B E backendNew = Except.ok (Arc.mk hv)) ∧
    (∀ e : E, backendNew = Except.error e →
      new B E backendNew = Except.error e) := by
  constructor
  · intro hv h
    subst h
    rfl
  · intro e h
    subst h
    rfl

theorem c6_new_propagates_backend_witness :
    new Unit Nat (Except.ok ()) = Except.ok (Arc.mk ()) ∧
    new Unit Nat (Except.error 13) = Except.error 13 :=
  ⟨(c6_new_propagates_backend Unit Nat (Except.ok ())).1 () rfl,
   (c6_new_propagates_backend Unit Nat (Except.error 13)).2 13 rfl⟩

/-! ## Vm guest memory regions (modelled from the spec) -/

/-- Modelled from the spec: `UserMemoryRegion` (declared in the crate module
`hypervisor`, outside the examined source): guest-physical start address,
size, host backing address, and a flag set; immutable once registered. -/
structure UserMemoryRegion where
  guest_phys_addr : Nat
  size : Nat
  userspace_addr : Nat
  flags : Nat
  deriving DecidableEq

def pageSize : Nat := 4096

/-- Modelled from the spec: guest-physical address and size must be
page-aligned. -/
def pageAligned (r : UserMemoryRegion) : Bool :=
  r.guest_phys_addr % pageSize == 0 && r.size % pageSize == 0

/-- Modelled from the spec: two regions overlap when their guest-physical
byte ranges intersect. -/
def overlaps (a b : UserMemoryRegion) : Bool :=
  decide (a.guest_phys_addr < b.guest_phys_addr + b.size) &&
  decide (b.guest_phys_addr < a.guest_phys_addr + a.size)

/-- Modelled from the spec: alignment and overlap failures of region
registration. -/
inductive RegionError
  | Misaligned
  | Overlap
  deriving DecidableEq

/-- Modelled from the spec: `set_user_memory_region` validates page alignment
and the non-overlap invariant; on failure it returns an error without
mutating the region set (all-or-nothing).  The result is the region set
visible after the call, paired with the error, if any. -/
def set_user_memory_region (regions : List UserMemoryRegion)
    (r : UserMemoryRegion) : List UserMemoryRegion × Option RegionError :=
  if !pageAligned r then (regions, some RegionError.Misaligned)
  else if regions.any (fun ex => overlaps ex r) then
    (regions, some RegionError.Overlap)
  else (regions ++ [r], none)

/-- Modelled from the spec: the caller registers a list of regions one by
one, stopping at the first failure. -/
def set_user_memory_regions (regions : List UserMemoryRegion) :
    List UserMemoryRegion → List UserMemoryRegion × Option RegionError
  | [] => (regions, none)
  | r :: rest =>
    match set_user_memory_region regions r with
    | (regions2, none) => set_user_memory_regions regions2 rest
    | (regions2, some e) => (regions2, some e)

theorem set_user_memory_regions_ok (L : List UserMemoryRegion) :
    ∀ init, (∀ r ∈ L, pageAligned r = true) →
    List.Pairwise (fun a b => overlaps a b = false) L →
    (∀ a ∈ init, ∀ b ∈ L, overlaps a b = false) →
    set_user_memory_regions init L = (init ++ L, none) := by
  induction L with
  | nil =>
    intro init _ _ _
    simp [set_user_memory_regions]
  | cons r rest ih =>
    intro init hAl hPw hCross
    have hr : pageAligned r = true := hAl r (by simp)
    have hno : init.any (fun ex => overlaps ex r) = false := by
      rw [List.any_eq_false]
      intro x hx
      simp [hCross x hx r (by simp)]
    have hstep : set_user_memory_region init r = (init ++ [r], none) := by
      unfold set_user_memory_region
      rw [hr, hno]
      simp
    rw [List.pairwise_cons] at hPw
    have hrec := ih (init ++ [r]) (fun b hb => hAl b (by simp [hb])) hPw.2 ?_
    · unfold set_user_memory_regions
      rw [hstep]
      simpa [List.append_assoc] using hrec
    · intro a ha b hb
      rcases List.mem_append.mp ha with h | h
      · exact hCross a h b (by simp [hb])
      · rw [List.mem_singleton.mp h]
        exact hPw.1 b hb

/-- Claim C2: registering any list of pairwise non-overlapping, page-aligned
regions succeeds and the visible region set is exactly that list; a
misaligned or overlapping region is rejected with the corresponding error;
every failure leaves the prior region set unchanged (all-or-nothing); and
every successful registration preserves the invariant that registered
regions never overlap in guest-physical address space. -/
theorem c2_region_set_invariant :
    (∀ L : List UserMemoryRegion, (∀ r ∈ L, pageAligned r = true) →
      List.Pairwise (fun a b => overlaps a b = false) L →
      set_user_memory_regions [] L = (L, none)) ∧
    (∀ regions r, pageAligned r = false →
      set_user_memory_region regions r = (regions, some RegionError.Misaligned)) ∧
    (∀ regions r, pageAligned r = true →
      regions.any (fun ex => overlaps ex r) = true →
      set_user_memory_region regions r = (regions, some RegionError.Overlap)) ∧
    (∀ regions r out e, set_user_memory_region regions r = (out, some e) →
      out = regions) ∧
    (∀ regions r out,
      List.Pairwise (fun a b => overlaps a b = false) regions →
      set_user_memory_region regions r = (out, none) →
      List.Pairwise (fun a b => overlaps a b = false) out) := by
  refine ⟨?_, ?_, ?_, ?_, ?_⟩
  · intro L hAl hPw
    have := set_user_memory_regions_ok L [] hAl hPw (by simp)
    simpa using this
  · intro regions r hr
    unfold set_user_memory_region
    rw [hr]
    rfl
  · intro regions r hr hany
    unfold set_user_memory_region
    rw [hr, hany]
    rfl
  · intro regions r out e h
    unfold set_user_memory_region at h
    by_cases hr : pageAligned r
    · rw [hr] at h
      by_cases hany : regions.any (fun ex => overlaps ex r)
      · rw [hany] at h
        simp at h
        exact h.1.symm
      · rw [Bool.not_eq_true] at hany
        rw [hany] at h
        simp at h
    · rw [Bool.not_eq_true] at hr
      rw [hr] at h
      simp at h
      exact h.1.symm
  · intro regions r out hPw h
    unfold set_user_memory_region at h
    by_cases hr : pageAligned r
    · rw [hr] at h
      by_cases hany : regions.any (fun ex => overlaps ex r)
      · rw [hany] at h
        simp at h
      · rw [Bool.not_eq_true] at hany
        rw [hany] at h
        simp at h
        rw [List.any_eq_false] at hany
        rw [← h, List.pairwise_append]
        refine ⟨hPw, by simp, ?_⟩
        intro a ha b hb
        rw [List.mem_singleton.mp hb]
        simpa using hany a ha
    · rw [Bool.not_eq_true] at hr
      rw [hr] at h
      simp at h

theorem c2_region_set_invariant_witness :
    set_user_memory_regions []
      [⟨0, 4096, 0, 0⟩, ⟨8192, 4096, 1000, 0⟩] =
      ([⟨0, 4096, 0, 0⟩, ⟨8192, 4096, 1000, 0⟩], none) ∧
    set_user_memory_region [⟨0, 4096, 0, 0⟩] ⟨4097, 4096, 0, 0⟩ =
      ([⟨0, 4096, 0, 0⟩], some RegionError.Misaligned) ∧
    set_user_memory_region [⟨0, 4096, 0, 0⟩] ⟨0, 12288, 0, 0⟩ =
      ([⟨0, 4096, 0, 0⟩], some RegionError.Overlap) ∧
    ([⟨0, 4096, 0, 0⟩] : List UserMemoryRegion) = [⟨0, 4096, 0, 0⟩] ∧
    List.Pairwise (fun a b => overlaps a b = false)
      ([⟨0, 4096, 0, 0⟩, ⟨8192, 4096, 1000, 0⟩] : List UserMemoryRegion) :=
  ⟨c2_region_set_invariant.1 _ (by decide) (by decide),
   c2_region_set_invariant.2.1 _ _ (by decide),
   c2_region_set_invariant.2.2.1 _ _ (by decide) (by decide),
   c2_region_set_invariant.2.2.2.1 [⟨0, 4096, 0, 0⟩] ⟨4097, 4096, 0, 0⟩
     [⟨0, 4096, 0, 0⟩] RegionError.Misaligned (by decide),
   c2_region_set_invariant.2.2.2.2 [⟨0, 4096, 0, 0⟩] ⟨8192, 4096, 1000, 0⟩
     [⟨0, 4096, 0, 0⟩, ⟨8192, 4096, 1000, 0⟩] (by decide) (by decide)⟩

/-! ## IRQ routing (modelled from the spec) -/

/-- Modelled from the spec: interrupt source configuration, a tagged variant
of legacy line versus message-signaled interrupt (declared in the crate
module `vm`, outside the examined source). -/
inductive InterruptSourceConfig
  | LegacyIrq (irqchip : Nat) (pin : Nat)
  | MsiIrq (high_addr : Nat) (low_addr : Nat) (data : Nat)
  deriving DecidableEq

/-- Modelled from the spec: one routing entry maps a global system interrupt
number to a source configuration. -/
structure IrqRoutingEntry where
  gsi : Nat
  config : InterruptSourceConfig
  deriving DecidableEq

/-- Modelled from the spec: the backend validates the referenced interrupt
resources entry by entry; this computes the index of the first entry it
rejects, if any. -/
def firstInvalidEntry (valid : IrqRoutingEntry → Bool) :
    List IrqRoutingEntry → Option Nat
  | [] => none
  | e :: rest =>
    if valid e then (firstInvalidEntry valid rest).map (· + 1)
    else some 0

/-- Modelled from the spec: `set_irq_routing` replaces the whole table
atomically; an invalid entry leaves the previously-installed table in
effect.  The result is the table visible to a routing query after the call,
paired with the index of the rejected entry when the input is invalid. -/
def set_irq_routing (valid : IrqRoutingEntry → Bool)
    (installed newTable : List IrqRoutingEntry) :
    List IrqRoutingEntry × Option Nat :=
  match firstInvalidEntry valid newTable with
  | none => (newTable, none)
  | some i => (installed, some i)

theorem firstInvalidEntry_eq_none (valid : IrqRoutingEntry → Bool)
    (T : List IrqRoutingEntry) (h : ∀ e ∈ T, valid e = true) :
    firstInvalidEntry valid T = none := by
  induction T with
  | nil => rfl
  | cons e rest ih =>
    unfold firstInvalidEntry
    rw [if_pos (h e (by simp)), ih (fun x hx => h x (by simp [hx]))]
    rfl

theorem firstInvalidEntry_invalid (valid : IrqRoutingEntry → Bool)
    (T : List IrqRoutingEntry) (dfltEntry : IrqRoutingEntry) :
    ∀ i, firstInvalidEntry valid T = some i →
      i < T.length ∧ valid (T.getD i dfltEntry) = false := by
  induction T with
  | nil => intro i h; exact absurd h (by simp [firstInvalidEntry])
  | cons e rest ih =>
    intro i h
    unfold firstInvalidEntry at h
    by_cases hv : valid e
    · rw [if_pos hv] at h
      rcases Option.map_eq_some'.mp h with ⟨j, hj, hij⟩
      rcases ih j hj with ⟨hlt, hval⟩
      subst hij
      exact ⟨by simpa using hlt, by simpa using hval⟩
    · rw [if_neg hv] at h
      simp only [Option.some.injEq] at h
      subst h
      exact ⟨by simp, by simpa using hv⟩

/-- Claim C3: installing a routing table all of whose entries are valid
succeeds, and a routing query immediately afterwards returns exactly that
table; installing a table containing an invalid entry fails with the index
of the invalid entry and the query returns the previously-installed table
unchanged, never a partial mix of old and new entries. -/
theorem c3_irq_routing_atomic (valid : IrqRoutingEntry → Bool)
    (installed T : List IrqRoutingEntry) (dfltEntry : IrqRoutingEntry) :
    ((∀ e ∈ T, valid e = true) →
      set_irq_routing valid installed T = (T, none)) ∧
    (∀ i, firstInvalidEntry valid T = some i →
      i < T.length ∧ valid (T.getD i dfltEntry) = false ∧
      set_irq_routing valid installed T = (installed, some i)) := by
  constructor
  · intro h
    unfold set_irq_routing
    rw [firstInvalidEntry_eq_none valid T h]
  · intro i h
    rcases firstInvalidEntry_invalid valid T dfltEntry i h with ⟨hlt, hval⟩
    refine ⟨hlt, hval, ?_⟩
    unfold set_irq_routing
    rw [h]

theorem c3_irq_routing_atomic_witness :
    set_irq_routing (fun e => decide (e.gsi < 32))
      [⟨7, InterruptSourceConfig.LegacyIrq 0 7⟩]
      [⟨1, InterruptSourceConfig.LegacyIrq 0 1⟩,
       ⟨2, InterruptSourceConfig.MsiIrq 0 0 5⟩] =
      ([⟨1, InterruptSourceConfig.LegacyIrq 0 1⟩,
        ⟨2, InterruptSourceConfig.MsiIrq 0 0 5⟩], none) ∧
    (1 < ([⟨1, InterruptSourceConfig.LegacyIrq 0 1⟩,
        ⟨40, InterruptSourceConfig.MsiIrq 0 0 5⟩] : List IrqRoutingEntry).length ∧
     (fun e => decide (e.gsi < 32))
        (([⟨1, InterruptSourceConfig.LegacyIrq 0 1⟩,
           ⟨40, InterruptSourceConfig.MsiIrq 0 0 5⟩] :
          List IrqRoutingEntry).getD 1 ⟨0, InterruptSourceConfig.LegacyIrq 0 0⟩) = false ∧
     set_irq_routing (fun e => decide (e.gsi < 32))
      [⟨7, InterruptSourceConfig.LegacyIrq 0 7⟩]
      [⟨1, InterruptSourceConfig.LegacyIrq 0 1⟩,
       ⟨40, InterruptSourceConfig.MsiIrq 0 0 5⟩] =
      ([⟨7, InterruptSourceConfig.LegacyIrq 0 7⟩], some 1)) :=
  ⟨(c3_irq_routing_atomic (fun e => decide (e.gsi < 32))
      [⟨7, InterruptSourceConfig.LegacyIrq 0 7⟩]
      [⟨1, InterruptSourceConfig.LegacyIrq 0 1⟩,
       ⟨2, InterruptSourceConfig.MsiIrq 0 0 5⟩]
      ⟨0, InterruptSourceConfig.LegacyIrq 0 0⟩).1 (by decide),
   (c3_irq_routing_atomic (fun e => decide (e.gsi < 32))
      [⟨7, InterruptSourceConfig.LegacyIrq 0 7⟩]
      [⟨1, InterruptSourceConfig.LegacyIrq 0 1⟩,
       ⟨40, InterruptSourceConfig.MsiIrq 0 0 5⟩]
      ⟨0, InterruptSourceConfig.LegacyIrq 0 0⟩).2 1 (by decide)⟩

/-! ## Vcpu registers and Vm save/restore (modelled from the spec) -/

/-- Modelled from the spec: architectural register state of one Vcpu
(general purpose, special, and vector/floating-point register files),
abstracted as numeric register files; the sole channel for save/restore. -/
structure CpuState where
  regs : List Nat
  sregs : List Nat
  fpu : List Nat
  deriving DecidableEq

/-- Modelled from the spec: a Vcpu, identified by a zero-based index unique
within its Vm, holding its architectural register state. -/
structure Vcpu where
  index : Nat
  state : CpuState
  deriving DecidableEq

/-- Modelled from the spec: `set_registers` installs the given register set
on the Vcpu. -/
def set_registers (v : Vcpu) (s : CpuState) : Vcpu :=
  ⟨v.index, s⟩

/-- Modelled from the spec: `get_registers` reads back the current register
set of the Vcpu. -/
def get_registers (v : Vcpu) : CpuState :=
  v.state

/-- Claim C5: for every Vcpu and every register set S, `set_registers(S)`
followed by `get_registers()` returns exactly S (round-trip law). -/
theorem c5_registers_round_trip (v : Vcpu) (s : CpuState) :
    get_registers (set_registers v s) = s := rfl

/-- Modelled from the spec: the two mutually incompatible backends, exactly
one of which is compiled in. -/
inductive BackendKind
  | Kvm
  | Mshv
  deriving DecidableEq

/-- Modelled from the spec: the two supported processor architectures. -/
inductive ArchKind
  | X86_64
  | Aarch64
  deriving DecidableEq

/-- Modelled from the spec: the Vm-wide state covered by save and restore:
backend and architecture identity, the memory-region set, the IRQ routing
table, and each Vcpu register state. -/
structure Vm where
  backend : BackendKind
  arch : ArchKind
  regions : List UserMemoryRegion
  routing : List IrqRoutingEntry
  cpu_states : List CpuState
  deriving DecidableEq

/-- Modelled from the spec: the opaque snapshot blob produced by `save`,
tagged with the backend and architecture that produced it. -/
structure VmState where
  backend : BackendKind
  arch : ArchKind
  regions : List UserMemoryRegion
  routing : List IrqRoutingEntry
  cpu_states : List CpuState
  deriving DecidableEq

/-- Modelled from the spec: `save` produces the tagged state blob. -/
def save (vm : Vm) : VmState :=
  ⟨vm.backend, vm.arch, vm.regions, vm.routing, vm.cpu_states⟩

/-- Modelled from the spec: restoring a blob into an incompatible
backend/architecture fails with a state-mismatch error. -/
inductive RestoreError
  | StateMismatch
  deriving DecidableEq

/-- Modelled from the spec: `restore` checks the blob tags against the live
Vm and either installs the saved state or fails with a state mismatch,
mutating nothing.  The result is the Vm visible after the call paired with
the error, if any. -/
def restore (vm : Vm) (blob : VmState) : Vm × Option RestoreError :=
  if blob.backend = vm.backend ∧ blob.arch = vm.arch then
    (⟨vm.backend, vm.arch, blob.regions, blob.routing, blob.cpu_states⟩, none)
  else (vm, some RestoreError.StateMismatch)

/-- Claim C4: `save()` followed by `restore()` into a freshly constructed Vm
of the identical backend and architecture reproduces the register state, the
memory-region set, and the IRQ-routing table bit-for-bit; restoring a blob
tagged for a different backend or architecture fails with a state-mismatch
error and mutates nothing in the target Vm. -/
theorem c4_save_restore_round_trip (vm fresh : Vm) :
    (fresh.backend = vm.backend → fresh.arch = vm.arch →
      restore fresh (save vm) =
        (⟨fresh.backend, fresh.arch, vm.regions, vm.routing, vm.cpu_states⟩,
         none)) ∧
    (¬(vm.backend = fresh.backend ∧ vm.arch = fresh.arch) →
      restore fresh (save vm) = (fresh, some RestoreError.StateMismatch)) := by
  constructor
  · intro hb ha
    unfold restore save
    rw [if_pos ⟨hb.symm, ha.symm⟩]
  · intro hmis
    unfold restore save
    rw [if_neg hmis]

theorem c4_save_restore_round_trip_witness :
    restore ⟨BackendKind.Kvm, ArchKind.X86_64, [], [], []⟩
      (save ⟨BackendKind.Kvm, ArchKind.X86_64, [⟨0, 4096, 77, 1⟩],
        [⟨1, InterruptSourceConfig.LegacyIrq 0 1⟩], [⟨[1, 2], [3], [4]⟩]⟩) =
      (⟨BackendKind.Kvm, ArchKind.X86_64, [⟨0, 4096, 77, 1⟩],
        [⟨1, InterruptSourceConfig.LegacyIrq 0 1⟩], [⟨[1, 2], [3], [4]⟩]⟩,
       none) ∧
    restore ⟨BackendKind.Mshv, ArchKind.X86_64, [], [], []⟩
      (save ⟨BackendKind.Kvm, ArchKind.X86_64, [⟨0, 4096, 77, 1⟩],
        [⟨1, InterruptSourceConfig.LegacyIrq 0 1⟩], [⟨[1, 2], [3], [4]⟩]⟩) =
      (⟨BackendKind.Mshv, ArchKind.X86_64, [], [], []⟩,
       some RestoreError.StateMismatch) :=
  ⟨(c4_save_restore_round_trip
      ⟨BackendKind.Kvm, ArchKind.X86_64, [⟨0, 4096, 77, 1⟩],
        [⟨1, InterruptSourceConfig.LegacyIrq 0 1⟩], [⟨[1, 2], [3], [4]⟩]⟩
      ⟨BackendKind.Kvm, ArchKind.X86_64, [], [], []⟩).1 rfl rfl,
   (c4_save_restore_round_trip
      ⟨BackendKind.Kvm, ArchKind.X86_64, [⟨0, 4096, 77, 1⟩],
        [⟨1, InterruptSourceConfig.LegacyIrq 0 1⟩], [⟨[1, 2], [3], [4]⟩]⟩
      ⟨BackendKind.Mshv, ArchKind.X86_64, [], [], []⟩).2 (by decide)⟩

/-! ## Vcpu run exit normalization (modelled from the spec) -/

/-- Modelled from the spec: the raw exit record the backend kernel interface
hands back from a run call: a numeric exit-reason code plus the payload
fields used by the recognized exits (I/O port, MMIO address, access size,
direction, data buffer). -/
structure RawExit where
  code : Nat
  port : Nat
  addr : Nat
  size : Nat
  is_write : Bool
  data : List Nat
  deriving DecidableEq

def EXIT_IRQ_WINDOW_OPEN : Nat := 1

def EXIT_IO : Nat := 2

def EXIT_HYPERCALL : Nat := 3

def EXIT_HLT : Nat := 5

def EXIT_MMIO : Nat := 6

def EXIT_SHUTDOWN : Nat := 8

/-- Modelled from the spec: the generic, architecture-agnostic `VmExit`
enumeration, each variant carrying the minimal typed payload needed to
service it; unrecognized raw exit codes are carried by `Unknown`. -/
inductive VmExit
  | IoIn (port : Nat) (size : Nat)
  | IoOut (port : Nat) (size : Nat) (data : List Nat)
  | MmioRead (addr : Nat) (size : Nat)
  | MmioWrite (addr : Nat) (size : Nat) (data : List Nat)
  | Hlt
  | Shutdown
  | IrqWindowOpen
  | Hypercall
  | Unknown (code : Nat)
  deriving DecidableEq

/-- The raw exit-reason codes that normalization recognizes. -/
def recognizedExitCodes : List Nat :=
  [EXIT_IRQ_WINDOW_OPEN, EXIT_IO, EXIT_HYPERCALL, EXIT_HLT, EXIT_MMIO,
   EXIT_SHUTDOWN]

/-- Modelled from the spec: total normalization of a raw backend exit into
the generic `VmExit`, preserving the architecture-specific payload and
mapping every unrecognized code to `Unknown` with the raw code. -/
def normalizeExit (r : RawExit) : VmExit :=
  if r.code = EXIT_IO then
    if r.is_write then VmExit.IoOut r.port r.size r.data
    else VmExit.IoIn r.port r.size
  else if r.code = EXIT_MMIO then
    if r.is_write then VmExit.MmioWrite r.addr r.size r.data
    else VmExit.MmioRead r.addr r.size
  else if r.code = EXIT_HLT then VmExit.Hlt
  else if r.code = EXIT_SHUTDOWN then VmExit.Shutdown
  else if r.code = EXIT_IRQ_WINDOW_OPEN then VmExit.IrqWindowOpen
  else if r.code = EXIT_HYPERCALL then VmExit.Hypercall
  else VmExit.Unknown r.code

/-- Modelled from the spec: Vcpu-level error kind wrapping an originating
kernel error code. -/
inductive HypervisorCpuError
  | RunVcpu (errno : Nat)
  deriving DecidableEq

/-- Modelled from the spec: a run call returns the normalized exit reason;
an unrecognized exit code is not an error. -/
def runExit (r : RawExit) : Except HypervisorCpuError VmExit :=
  Except.ok (normalizeExit r)

/-- Claim C7: exit-reason normalization is total: every recognized raw exit
maps to the corresponding generic `VmExit` variant with its payload
preserved, and every unrecognized raw exit code maps to `Unknown` carrying
the raw code, rather than the run call returning an error. -/
theorem c7_exit_normalization_total (r : RawExit) :
    (r.code = EXIT_IO → r.is_write = true →
      normalizeExit r = VmExit.IoOut r.port r.size r.data) ∧
    (r.code = EXIT_IO → r.is_write = false →
      normalizeExit r = VmExit.IoIn r.port r.size) ∧
    (r.code = EXIT_MMIO → r.is_write = true →
      normalizeExit r = VmExit.MmioWrite r.addr r.size r.data) ∧
    (r.code = EXIT_MMIO → r.is_write = false →
      normalizeExit r = VmExit.MmioRead r.addr r.size) ∧
    (r.code = EXIT_HLT → normalizeExit r = VmExit.Hlt) ∧
    (r.code = EXIT_SHUTDOWN → normalizeExit r = VmExit.Shutdown) ∧
    (r.code = EXIT_IRQ_WINDOW_OPEN → normalizeExit r = VmExit.IrqWindowOpen) ∧
    (r.code = EXIT_HYPERCALL → normalizeExit r = VmExit.Hypercall) ∧
    (r.code ∉ recognizedExitCodes → normalizeExit r = VmExit.Unknown r.code) ∧
    runExit r = Except.ok (normalizeExit r) := by
  refine ⟨?_, ?_, ?_, ?_, ?_, ?_, ?_, ?_, ?_, rfl⟩
  all_goals
    intro h
  case _ =>
    intro hw
    simp [normalizeExit, h, hw, EXIT_IO]
  case _ =>
    intro hw
    simp [normalizeExit, h, hw, EXIT_IO]
  case _ =>
    intro hw
    simp [normalizeExit, h, hw, EXIT_IO, EXIT_MMIO]
  case _ =>
    intro hw
    simp [normalizeExit, h, hw, EXIT_IO, EXIT_MMIO]
  case _ =>
    simp [normalizeExit, h, EXIT_IO, EXIT_MMIO, EXIT_HLT]
  case _ =>
    simp [normalizeExit, h, EXIT_IO, EXIT_MMIO, EXIT_HLT, EXIT_SHUTDOWN]
  case _ =>
    simp [normalizeExit, h, EXIT_IO, EXIT_MMIO, EXIT_HLT, EXIT_SHUTDOWN,
      EXIT_IRQ_WINDOW_OPEN]
  case _ =>
    simp [normalizeExit, h, EXIT_IO, EXIT_MMIO, EXIT_HLT, EXIT_SHUTDOWN,
      EXIT_IRQ_WINDOW_OPEN, EXIT_HYPERCALL]
  case _ =>
    simp [recognizedExitCodes, EXIT_IO, EXIT_MMIO, EXIT_HLT, EXIT_SHUTDOWN,
      EXIT_IRQ_WINDOW_OPEN, EXIT_HYPERCALL] at h
    simp [normalizeExit, EXIT_IO, EXIT_MMIO, EXIT_HLT, EXIT_SHUTDOWN,
      EXIT_IRQ_WINDOW_OPEN, EXIT_HYPERCALL, h]

theorem c7_exit_normalization_total_witness :
    normalizeExit ⟨2, 1016, 0, 1, true, [65]⟩ = VmExit.IoOut 1016 1 [65] ∧
    normalizeExit ⟨42, 0, 0, 0, false, []⟩ = VmExit.Unknown 42 ∧
    runExit ⟨42, 0, 0, 0, false, []⟩ =
      Except.ok (normalizeExit ⟨42, 0, 0, 0, false, []⟩) :=
  ⟨(c7_exit_normalization_total ⟨2, 1016, 0, 1, true, [65]⟩).1 rfl rfl,
   (c7_exit_normalization_total
      ⟨42, 0, 0, 0, false, []⟩).2.2.2.2.2.2.2.2.1 (by decide),
   (c7_exit_normalization_total ⟨42, 0, 0, 0, false, []⟩).2.2.2.2.2.2.2.2.2⟩

end CloudHv
